import Mathlib

/-!
Shallow embedding of `get-free-port` (src/src/index.ts).

The module finds an unused TCP port, honouring a preference list, an
exclusion set and an in-process lock table with time-based expiry.  The
OS socket layer is external; it is modelled by an oracle (`OsModel`)
giving, for each probe (indexed by the number of probes issued so far),
the bind outcome and the time the bind takes to complete.  The timeout
race in `checkPortAvailability` is modelled by comparing that delay with
the configured timeout.  All state (the `portManager` singleton) is
passed explicitly; every issued probe is recorded in a log so that
"never attempts a bind" style properties can be stated.
-/

namespace GetFreePort

/-- A JavaScript `Error` object as observed by callers: a message, a
`name`, and an optional machine-readable `code` property. -/
structure JsError where
  message : String
  name : String
  code : Option String
deriving Repr, DecidableEq

/-- `new LockedPortError(port)` (index.ts lines 7-16): the constructor sets
`message` to a string embedding the port, `name` to `"LockedPortError"` and
`code` to `"EPORTLOCKED"`.  No other own property is assigned. -/
def mkLockedPortError (port : Nat) : JsError :=
  { message := "Port " ++ toString port ++ " is locked"
  , name := "LockedPortError"
  , code := some "EPORTLOCKED" }

/-- The `portManager` state (index.ts lines 21-27).  `locked` is a JS `Map`
from port to reservation timestamp, modelled as an insertion-ordered
association list with unique keys; `cleanupTimer` is `null` or a timer
handle, modelled by a `Bool` (`true` = non-null). -/
structure PortManager where
  locked : List (Nat × Nat)
  cleanupInterval : Nat
  minPort : Nat
  maxPort : Nat
  cleanupTimer : Bool
deriving Repr, DecidableEq

/-- The initial `portManager` value (index.ts lines 21-27). -/
def initialPortManager : PortManager :=
  { locked := []
  , cleanupInterval := 15000
  , minPort := 1024
  , maxPort := 65535
  , cleanupTimer := false }

/-- `Map.prototype.has` on the lock table. -/
def mapHas (m : List (Nat × Nat)) (k : Nat) : Bool :=
  m.any (fun kv => kv.1 == k)

/-- `Map.prototype.set` on the lock table: overwrite in place if the key is
present, otherwise append (JS `Map` keeps first-insertion order). -/
def mapSet (m : List (Nat × Nat)) (k v : Nat) : List (Nat × Nat) :=
  if mapHas m k then m.map (fun kv => if kv.1 == k then (k, v) else kv)
  else m ++ [(k, v)]

/-- `cleanupExpiredPorts` (index.ts lines 50-57): delete every entry with
`now - timestamp >= cleanupInterval`. -/
def cleanupExpiredPorts (now : Nat) (pm : PortManager) : PortManager :=
  { pm with locked := pm.locked.filter (fun kv => now - kv.2 < pm.cleanupInterval) }

/-- `clearLockedPorts` (index.ts lines 261-267): empty the table and release
the cleanup timer. -/
def clearLockedPorts (pm : PortManager) : PortManager :=
  { pm with locked := [], cleanupTimer := false }

/-- `[...new Set(l)]`: deduplicate keeping the first occurrence of each
element, preserving order (JS `Set` iteration is insertion order). -/
def jsSetDedupAux {α : Type} [DecidableEq α] : List α → List α → List α
  | [], _ => []
  | x :: xs, seen =>
      if x ∈ seen then jsSetDedupAux xs seen
      else x :: jsSetDedupAux xs (x :: seen)

/-- `[...new Set(l)]` for a list. -/
def jsSetDedup {α : Type} [DecidableEq α] (l : List α) : List α :=
  jsSetDedupAux l []

/-- Errors thrown by `getPortRange`. -/
inductive RangeFailure where
  | typeError (msg : String)
  | rangeError (msg : String)
deriving Repr, DecidableEq

/-- `getPortRange` (index.ts lines 234-256).  Arguments are modelled as
rationals so that the `Number.isInteger` check is meaningful; the bounds are
read from the (mutable) `portManager` at call time. -/
def getPortRange (pm : PortManager) (f t : Rat) : Except RangeFailure (List Int) :=
  if !(f.isInt && t.isInt) then
    .error (.typeError "`from` and `to` must be integer numbers")
  else if f.num < (pm.minPort : Int) || (pm.maxPort : Int) < f.num then
    .error (.rangeError ("`from` must be between " ++ toString pm.minPort ++
      " and " ++ toString pm.maxPort))
  else if t.num < (pm.minPort : Int) || (pm.maxPort : Int) < t.num then
    .error (.rangeError ("`to` must be between " ++ toString pm.minPort ++
      " and " ++ toString pm.maxPort))
  else if t.num < f.num then
    .error (.rangeError "`to` must be greater than or equal to `from`")
  else
    .ok ((List.range (t.num - f.num + 1).toNat).map (fun (i : Nat) => f.num + (i : Int)))

/-- `options.timeout || 1000` (index.ts line 88): `undefined` and the falsy
number `0` both fall back to the 1000 ms default. -/
def effectiveTimeout : Option Nat → Nat
  | none => 1000
  | some t => if t = 0 then 1000 else t

/-- Outcome of an OS-level bind attempt, were it to complete: the actually
bound port (relevant when the requested port is `0`) or an error code. -/
inductive BindOutcome where
  | ok (boundPort : Nat)
  | err (code : String)
deriving Repr, DecidableEq

/-- The external OS socket layer and interface enumeration.  `bind k h p`
is the outcome of the `k`-th probe issued by a run when it requests port
`p` on host `h`; `bindDelay k h p` is the time that bind takes to settle
(racing the probe's timeout, and inducing the completion order of
concurrent probes).  `ifaceAddrs` are the non-internal interface
addresses reported by `os.networkInterfaces()`. -/
structure OsModel where
  bind : Nat → Option String → Nat → BindOutcome
  bindDelay : Nat → Option String → Nat → Nat
  ifaceAddrs : List String

/-- One probe issued by `checkPortAvailability`: the host and port passed to
`server.listen` and the effective timeout of the race. -/
structure ProbeCall where
  host : Option String
  port : Nat
  timeoutMs : Nat
deriving Repr, DecidableEq

/-- The errors a `getOpenPort` run can reject with, tagged by kind.
`lockedPort` is `LockedPortError`; `osErr` is a propagated bind error
carrying its classification code; the rest are plain `Error`s. -/
inductive PortFailure where
  | lockedPort (port : Nat)
  | timeoutErr (ms : Nat)
  | osErr (code : String)
  | notAvailableOnAny (port : Nat)
  | noAvailablePorts
deriving Repr, DecidableEq

/-- The `.code` property of the corresponding JS error object:
`LockedPortError` has `"EPORTLOCKED"`, a propagated bind error keeps its
code, and the plain `Error`s have no `code` property. -/
def errCode : PortFailure → Option String
  | .lockedPort _ => some "EPORTLOCKED"
  | .osErr c => some c
  | _ => none

/-- `error instanceof LockedPortError`. -/
def isLockedPortFailure : PortFailure → Bool
  | .lockedPort _ => true
  | _ => false

/-- The JS error object observed by a caller for each failure, with the
message strings of the source. -/
def toJsError : PortFailure → JsError
  | .lockedPort p => mkLockedPortError p
  | .timeoutErr ms =>
      { message := "Port check timed out after " ++ toString ms ++ "ms"
      , name := "Error", code := none }
  | .osErr c => { message := c, name := "Error", code := some c }
  | .notAvailableOnAny p =>
      { message := "Port " ++ toString p ++
          " is not available on any of the network interfaces"
      , name := "Error", code := none }
  | .noAvailablePorts =>
      { message := "No available ports found", name := "Error", code := none }

/-- The options object passed to `checkPortAvailability` / `verifyPort`:
`net.ListenOptions & { timeout?: number }`. -/
structure ListenOpts where
  host : Option String := none
  port : Nat := 0
  timeout : Option Nat := none
deriving Repr, DecidableEq

/-- Core of `checkPortAvailability` (index.ts lines 81-108) for the probe
with index `k`: if the bind does not settle before the (effective) timeout
fires, the run fails with the timeout error embedding the configured
duration; otherwise the bind's own outcome decides (an `error` event
rejects with that error, a successful listen resolves with the actually
bound port). -/
def probeOutcome (os : OsModel) (k : Nat) (host : Option String) (port : Nat)
    (timeout : Option Nat) : Except PortFailure Nat :=
  let timeoutMs := effectiveTimeout timeout
  if timeoutMs ≤ os.bindDelay k host port then
    .error (.timeoutErr timeoutMs)
  else
    match os.bind k host port with
    | .ok p => .ok p
    | .err c => .error (.osErr c)

/-- `checkPortAvailability` (index.ts lines 81-108): issue one probe (logged)
and settle as `probeOutcome` describes.  The probe's index is the number of
probes issued so far. -/
def checkPortAvailability (os : OsModel) (opts : ListenOpts)
    (log : List ProbeCall) : Except PortFailure Nat × List ProbeCall :=
  ( probeOutcome os log.length opts.host opts.port opts.timeout
  , log ++ [{ host := opts.host, port := opts.port
            , timeoutMs := effectiveTimeout opts.timeout }] )

/-- `createHosts` (index.ts lines 63-74): a `Set` seeded with `undefined`
and `"0.0.0.0"`, extended (in encounter order, deduplicated) with every
non-internal interface address. -/
def createHosts (os : OsModel) : List (Option String) :=
  jsSetDedup (none :: some "0.0.0.0" :: os.ifaceAddrs.map some)

/-- JS truthiness of `options.host`: `undefined` and the empty string are
falsy. -/
def jsTruthyHost : Option String → Bool
  | none => false
  | some s => !(s == "")

/-- The per-host catch in `verifyPort`'s fan-out (index.ts lines 126-133):
an `EADDRNOTAVAIL` or `EINVAL` failure is converted to `null` (this host
cannot take the port, others might); any other failure is rethrown. -/
def swallowHostError (r : Except PortFailure Nat) : Except PortFailure (Option Nat) :=
  match r with
  | .ok p => .ok (some p)
  | .error e =>
      if errCode e == some "EADDRNOTAVAIL" || errCode e == some "EINVAL" then
        .ok none
      else .error e

/-- The `Promise.all` fan-out body (index.ts lines 124-135): probe the port
on every host (all probes are started, so all are logged), applying the
per-host catch.  Probes are logged in host order; a rejection of the
aggregate is modelled as the first rejection in that order. -/
def probeHosts (os : OsModel) (opts : ListenOpts) :
    List (Option String) → List ProbeCall →
    List (Except PortFailure (Option Nat)) × List ProbeCall
  | [], log => ([], log)
  | h :: hs, log =>
      let r := checkPortAvailability os { opts with host := h } log
      let rest := probeHosts os opts hs r.2
      (swallowHostError r.1 :: rest.1, rest.2)

/-- First rejection among the settled per-host results. -/
def firstRejection : List (Except PortFailure (Option Nat)) → Option PortFailure
  | [] => none
  | .error e :: _ => some e
  | .ok _ :: rest => firstRejection rest

/-- `results.find((port) => typeof port === "number" && !isNaN(port))`
(index.ts lines 137-139): the first non-null entry, in host order. -/
def firstNumber : List (Option Nat) → Option Nat
  | [] => none
  | none :: rest => firstNumber rest
  | some p :: _ => some p

/-- `verifyPort` (index.ts lines 116-152).  With a truthy explicit host or
the ephemeral sentinel `0`, a single probe decides.  Otherwise the port is
probed on every host; a non-swallowed per-host failure rejects the whole
verification; otherwise the first non-null result (`results.find`) is
returned — unless it is absent or the falsy number `0` (`if (!validPort)`),
in which case the "not available on any interface" error is thrown. -/
def verifyPort (os : OsModel) (opts : ListenOpts) (hosts : List (Option String))
    (log : List ProbeCall) : Except PortFailure Nat × List ProbeCall :=
  if jsTruthyHost opts.host || opts.port == 0 then
    checkPortAvailability os opts log
  else
    let fanned := probeHosts os opts hosts log
    match firstRejection fanned.1 with
    | some e => (.error e, fanned.2)
    | none =>
        let results : List (Option Nat) :=
          fanned.1.map (fun r => match r with | .ok v => v | .error _ => none)
        match firstNumber results with
        | some p =>
            if p == 0 then (.error (.notAvailableOnAny opts.port), fanned.2)
            else (.ok p, fanned.2)
        | none => (.error (.notAvailableOnAny opts.port), fanned.2)

/-- The options object accepted by `getOpenPort` (index.ts lines 159-165):
`port` is a number, an array of numbers or absent; `exclude` an iterable
(anything non-iterable behaves as absent); `timeout` and `host` are
forwarded to the probes. -/
structure GetPortOptions where
  port : Option (Sum Nat (List Nat)) := none
  exclude : Option (List Nat) := none
  timeout : Option Nat := none
  host : Option String := none

/-- `new Set(isIterable(options.exclude) ? options.exclude : [])`, used
only for membership. -/
def excludeList (o : Option (List Nat)) : List Nat := o.getD []

/-- `createPorts` (index.ts lines 42-45): absent input yields the ephemeral
fallback `[0]`; an iterable is deduplicated preserving order. -/
def createPorts (ports : Option (List Nat)) : List Nat :=
  match ports with
  | none => [0]
  | some l => jsSetDedup l

/-- The argument normalisation at the `createPorts` call site (index.ts
lines 179-185): an array is deduplicated, a scalar becomes a singleton,
absent stays absent. -/
def portsToCheck (o : Option (Sum Nat (List Nat))) : List Nat :=
  createPorts (match o with
    | none => none
    | some (.inl p) => some [p]
    | some (.inr l) => some (jsSetDedup l))

/-- The spread `{ ...options, port }` passed to `verifyPort`. -/
def toListen (o : GetPortOptions) (p : Nat) : ListenOpts :=
  { host := o.host, port := p, timeout := o.timeout }

/-- Outcome of the `try` body for one candidate port: return a port (with
the updated lock table), throw an error (to the surrounding `catch`),
`continue` to the next candidate, or exhaust the fuel bounding the
source's unbounded `while` loop. -/
inductive TryOutcome where
  | ret (port : Nat) (pm : PortManager) (log : List ProbeCall)
  | thrown (e : PortFailure) (log : List ProbeCall)
  | cont (log : List ProbeCall)
  | fuelOut (log : List ProbeCall)
deriving Repr, DecidableEq

/-- Is the outcome a fuel exhaustion (i.e. the source loop still running)? -/
def TryOutcome.isFuelOut : TryOutcome → Bool
  | .fuelOut _ => true
  | _ => false

/-- The `while (portManager.locked.has(availablePort))` loop together with
the subsequent reserve-and-return (index.ts lines 198-205): while the
verified port is itself locked, fail with `LockedPortError` if the
candidate was nonzero, otherwise re-verify with a fresh ephemeral request;
once unlocked, reserve it (timestamped `now`) and return it.  `fuel`
bounds the unbounded source loop; running out yields `fuelOut`. -/
def retryWhileLocked (os : OsModel) (opts : GetPortOptions)
    (hosts : List (Option String)) (pm : PortManager) (now : Nat)
    (cand : Nat) : Nat → Nat → List ProbeCall → TryOutcome
  | fuel, avail, log =>
    if mapHas pm.locked avail then
      if cand != 0 then .thrown (.lockedPort cand) log
      else
        match fuel with
        | 0 => .fuelOut log
        | fuel + 1 =>
            match verifyPort os (toListen opts 0) hosts log with
            | (.ok a, log2) => retryWhileLocked os opts hosts pm now cand fuel a log2
            | (.error e, log2) => .thrown e log2
    else .ret avail { pm with locked := mapSet pm.locked avail now } log

/-- The `try` body for one candidate (index.ts lines 188-205): an excluded
or locked candidate is either failed with `LockedPortError` (locked and
nonzero) or skipped; otherwise the candidate is verified and the
self-locked retry loop runs. -/
def tryCandidate (os : OsModel) (opts : GetPortOptions)
    (hosts : List (Option String)) (exclude : List Nat) (pm : PortManager)
    (now fuel : Nat) (cand : Nat) (log : List ProbeCall) : TryOutcome :=
  if exclude.contains cand || mapHas pm.locked cand then
    if mapHas pm.locked cand && cand != 0 then .thrown (.lockedPort cand) log
    else .cont log
  else
    match verifyPort os (toListen opts cand) hosts log with
    | (.ok avail, log2) => retryWhileLocked os opts hosts pm now cand fuel avail log2
    | (.error e, log2) => .thrown e log2

/-- Outcome of one whole `getOpenPort` run. -/
inductive RunResult where
  | ok (port : Nat)
  | err (e : PortFailure)
  | diverge
deriving Repr, DecidableEq

/-- Result of the candidate loop: settled, or all candidates exhausted. -/
inductive LoopOut where
  | done (r : RunResult) (pm : PortManager) (log : List ProbeCall)
  | exhausted (log : List ProbeCall)
deriving Repr, DecidableEq

/-- Should the candidate-level `catch` (index.ts lines 206-216) swallow the
error and continue with the next candidate?  `EADDRINUSE` is rethrown;
a `"EACCES"`-classified error or a `LockedPortError` is swallowed; any
other error is rethrown. -/
def swallowInCatch (e : PortFailure) : Bool :=
  if errCode e == some "EADDRINUSE" then false
  else if errCode e == some "EACCES" || isLockedPortFailure e then true
  else false

/-- The `for (const port of portsToCheck)` loop with its `catch`
(index.ts lines 187-217). -/
def candidateLoop (os : OsModel) (opts : GetPortOptions)
    (hosts : List (Option String)) (exclude : List Nat) (pm : PortManager)
    (now fuel : Nat) : List Nat → List ProbeCall → LoopOut
  | [], log => .exhausted log
  | c :: cs, log =>
      match tryCandidate os opts hosts exclude pm now fuel c log with
      | .ret p pm2 log2 => .done (.ok p) pm2 log2
      | .cont log2 => candidateLoop os opts hosts exclude pm now fuel cs log2
      | .fuelOut log2 => .done .diverge pm log2
      | .thrown e log2 =>
          if swallowInCatch e then
            candidateLoop os opts hosts exclude pm now fuel cs log2
          else .done (.err e) pm log2

/-- Everything one `getOpenPort` run yields: its settled result, the
`portManager` state it leaves behind, and the probes it issued. -/
structure RunOut where
  result : RunResult
  pm : PortManager
  log : List ProbeCall
deriving Repr, DecidableEq

/-- `getOpenPort` (index.ts lines 159-226).  The cleanup timer is armed
unconditionally at the start of every call; hosts are enumerated once; the
candidate list is built from `options.port`; the candidate loop runs; on
exhaustion the call rejects with `LockedPortError` for the first
originally-requested candidate that is currently locked, else with the
generic "No available ports found" error. -/
def getOpenPort (os : OsModel) (fuel now : Nat) (opts : GetPortOptions)
    (pm : PortManager) : RunOut :=
  let exclude := excludeList opts.exclude
  let pm1 : PortManager := { pm with cleanupTimer := true }
  let hosts := createHosts os
  let ports := portsToCheck opts.port
  match candidateLoop os opts hosts exclude pm1 now fuel ports [] with
  | .done r pm2 log => { result := r, pm := pm2, log := log }
  | .exhausted log =>
      match ports.find? (fun p => mapHas pm1.locked p) with
      | some p => { result := .err (.lockedPort p), pm := pm1, log := log }
      | none => { result := .err .noAvailablePorts, pm := pm1, log := log }

/-- An operation the module itself performs on the `portManager`
singleton: a `getOpenPort` call (with its environment), a firing of the
periodic sweep, or `clearLockedPorts`. -/
inductive Op where
  | call (os : OsModel) (fuel now : Nat) (opts : GetPortOptions)
  | sweep (now : Nat)
  | clear

/-- Effect of one operation on the `portManager` state. -/
def applyOp (pm : PortManager) : Op → PortManager
  | .call os fuel now opts => (getOpenPort os fuel now opts pm).pm
  | .sweep now => cleanupExpiredPorts now pm
  | .clear => clearLockedPorts pm

/-- Run a sequence of operations from a given state. -/
def runOps (pm : PortManager) : List Op → PortManager
  | [] => pm
  | op :: ops => runOps (applyOp pm op) ops

/-- The state reached from the initial `portManager` by a trace. -/
def runTrace (ops : List Op) : PortManager :=
  runOps initialPortManager ops

/-- Did the run resolve (successfully reserve and return a port)? -/
def RunResult.isOk : RunResult → Bool
  | .ok _ => true
  | _ => false

/-- Spec-side counter: the number of successful reservations made since the
start (or since the last `clearLockedPorts`), after running `ops` from
state `pm` with `c` reservations already on record. -/
def reservationsSinceClear (pm : PortManager) (c : Nat) : List Op → Nat
  | [] => c
  | .clear :: ops => reservationsSinceClear (clearLockedPorts pm) 0 ops
  | .sweep now :: ops => reservationsSinceClear (cleanupExpiredPorts now pm) c ops
  | .call os fuel now opts :: ops =>
      let out := getOpenPort os fuel now opts pm
      reservationsSinceClear out.pm (if out.result.isOk then c + 1 else c) ops

/-- Spec-side counter: the number of `getOpenPort` calls (of any outcome)
since the start or the last `clearLockedPorts`. -/
def callsSinceClear (c : Nat) : List Op → Nat
  | [] => c
  | .clear :: ops => callsSinceClear 0 ops
  | .sweep _ :: ops => callsSinceClear c ops
  | .call _ _ _ _ :: ops => callsSinceClear (c + 1) ops

/-- Spec-side view of the multi-host fan-out: for each host, the delay with
which its probe settles and its outcome, with probe indices continuing
from `k`. -/
def settledProbes (os : OsModel) (port : Nat) (timeout : Option Nat) :
    List (Option String) → Nat → List (Nat × Except PortFailure Nat)
  | [], _ => []
  | h :: hs, k =>
      (os.bindDelay k h port, probeOutcome os k h port timeout)
        :: settledProbes os port timeout hs (k + 1)

/-- The successful settlements, as (completion delay, bound port) pairs. -/
def successSettlements (xs : List (Nat × Except PortFailure Nat)) :
    List (Nat × Nat) :=
  xs.filterMap (fun dr => match dr.2 with
    | .ok p => some (dr.1, p)
    | .error _ => none)

/-- The element with the smallest delay (earliest completion). -/
def earliestByDelay : List (Nat × Nat) → Option (Nat × Nat)
  | [] => none
  | x :: rest => some (rest.foldl (fun b a => if a.1 < b.1 then a else b) x)

/-- Modelled from the spec: "the first such successful result (by
completion order among the settled results)" — among the per-host probes
of the fan-out (indices starting at `k`), the bound port of the success
that settles earliest. -/
def firstSuccessByCompletion (os : OsModel) (port : Nat) (timeout : Option Nat)
    (hosts : List (Option String)) (k : Nat) : Option Nat :=
  (earliestByDelay (successSettlements (settledProbes os port timeout hosts k))).map
    (fun dp => dp.2)

/-- Modelled from the spec: the exit condition of one iteration of the
ephemeral re-verify loop — the probe with index `k` either fails (which
exits the loop by throwing) or resolves to a port that is not locked. -/
def probeExitsAt (os : OsModel) (pm : PortManager) (host : Option String)
    (timeout : Option Nat) (k : Nat) : Prop :=
  match probeOutcome os k host 0 timeout with
  | .ok p => mapHas pm.locked p = false
  | .error _ => True

/-- An OS on which every bind instantly succeeds with port 5000. -/
def osConst5000 : OsModel :=
  { bind := fun _ _ _ => .ok 5000
  , bindDelay := fun _ _ _ => 0
  , ifaceAddrs := [] }

/-- An OS on which every bind instantly succeeds with port 4000 — in
particular every ephemeral allocation collides with a lock on 4000. -/
def osConst4000 : OsModel :=
  { bind := fun _ _ _ => .ok 4000
  , bindDelay := fun _ _ _ => 0
  , ifaceAddrs := [] }

/-- An OS whose first bind yields the (locked) port 4000 and every later
bind yields 5000. -/
def osSecond5000 : OsModel :=
  { bind := fun k _ _ => if k == 0 then .ok 4000 else .ok 5000
  , bindDelay := fun _ _ _ => 0
  , ifaceAddrs := [] }

/-- An OS on which every bind fails instantly with `EADDRINUSE`. -/
def osAddrInUse : OsModel :=
  { bind := fun _ _ _ => .err "EADDRINUSE"
  , bindDelay := fun _ _ _ => 0
  , ifaceAddrs := [] }

/-- An OS that binds exactly the requested port, the `k`-th probe settling
after `k` time units. -/
def osEcho : OsModel :=
  { bind := fun _ _ p => .ok p
  , bindDelay := fun k _ _ => k
  , ifaceAddrs := [] }

/-- A manager state in which port 8080 is locked. -/
def pmLocked8080 : PortManager :=
  { initialPortManager with locked := [(8080, 5)] }

/-- A manager state in which port 4000 is locked. -/
def pmLocked4000 : PortManager :=
  { initialPortManager with locked := [(4000, 0)] }

/-- A trace consisting of a single `getOpenPort` call that fails (its
preference list is explicitly empty) and hence never reserves a port. -/
def failedCallTrace : List Op :=
  [Op.call osConst5000 0 0 { port := some (Sum.inr []) }]

/-- C8: for all integers `from ≤ to` within the configured bounds (1024 and
65535 initially), `getPortRange` returns the list of exactly
`to - from + 1` consecutive integers starting at `from`; non-integer
arguments raise the integer type error; an out-of-bounds bound or
`from > to` raises the corresponding range error. -/
theorem getPortRange_correct :
    (∀ f t : Int, 1024 ≤ f → f ≤ t → t ≤ 65535 →
      getPortRange initialPortManager (f : Rat) (t : Rat) =
          .ok ((List.range (t - f + 1).toNat).map (fun (j : Nat) => f + (j : Int))) ∧
        (((List.range (t - f + 1).toNat).map (fun (j : Nat) => f + (j : Int))).length : Int)
            = t - f + 1 ∧
        ∀ (i : Nat)
          (hi : i < ((List.range (t - f + 1).toNat).map (fun (j : Nat) => f + (j : Int))).length),
          ((List.range (t - f + 1).toNat).map (fun (j : Nat) => f + (j : Int))).get ⟨i, hi⟩
            = f + (i : Int)) ∧
    (∀ q r : Rat, (q.isInt && r.isInt) = false →
      getPortRange initialPortManager q r =
        .error (.typeError "`from` and `to` must be integer numbers")) ∧
    (∀ f t : Int, f < 1024 ∨ 65535 < f →
      getPortRange initialPortManager (f : Rat) (t : Rat) =
        .error (.rangeError "`from` must be between 1024 and 65535")) ∧
    (∀ f t : Int, 1024 ≤ f → f ≤ 65535 → t < 1024 ∨ 65535 < t →
      getPortRange initialPortManager (f : Rat) (t : Rat) =
        .error (.rangeError "`to` must be between 1024 and 65535")) ∧
    (∀ f t : Int, 1024 ≤ f → f ≤ 65535 → 1024 ≤ t → t ≤ 65535 → t < f →
      getPortRange initialPortManager (f : Rat) (t : Rat) =
        .error (.rangeError "`to` must be greater than or equal to `from`")) := by
  have hint : ∀ f t : Int, ((f : Rat).isInt && (t : Rat).isInt) = true := by
    intro f t
    simp [Rat.isInt, Rat.den_intCast]
  refine ⟨?_, ?_, ?_, ?_, ?_⟩
  · intro f t h1 h2 h3
    refine ⟨?_, ?_, ?_⟩
    · rw [getPortRange, hint f t]
      simp only [Bool.not_true, Bool.false_eq_true, if_false, Rat.num_intCast,
        initialPortManager]
      rw [if_neg (by simp; omega), if_neg (by simp; omega), if_neg (by omega)]
    · simp only [List.length_map, List.length_range]
      omega
    · intro i hi
      simp only [List.get_eq_getElem, List.getElem_map, List.getElem_range]
  · intro q r h
    rw [getPortRange, h]
    simp
  · intro f t h
    rw [getPortRange, hint f t]
    simp only [Bool.not_true, Bool.false_eq_true, if_false, Rat.num_intCast,
      initialPortManager]
    rw [if_pos (by simp; omega)]
    rfl
  · intro f t h1 h2 h3
    rw [getPortRange, hint f t]
    simp only [Bool.not_true, Bool.false_eq_true, if_false, Rat.num_intCast,
      initialPortManager]
    rw [if_neg (by simp; omega), if_pos (by simp; omega)]
    rfl
  · intro f t h1 h2 h3 h4 h5
    rw [getPortRange, hint f t]
    simp only [Bool.not_true, Bool.false_eq_true, if_false, Rat.num_intCast,
      initialPortManager]
    rw [if_neg (by simp; omega), if_neg (by simp; omega), if_pos (by omega)]

/-- Witness for `getPortRange_correct` at `from = 1024`, `to = 1029`. -/
theorem getPortRange_correct_witness :
    getPortRange initialPortManager ((1024 : Int) : Rat) ((1029 : Int) : Rat) =
      .ok [1024, 1025, 1026, 1027, 1028, 1029] := by
  have h := (getPortRange_correct.1 1024 1029 (by decide) (by decide) (by decide)).1
  rw [h]
  rfl

/-- C10: a `timeout` option equal to the falsy value `0` behaves exactly
like an unspecified timeout: the probe runs with the default 1000 ms bound
(and in particular does not time out immediately when the bind settles
within it). -/
theorem timeoutZero_defaults :
    (∀ (os : OsModel) (host : Option String) (port : Nat) (log : List ProbeCall),
      checkPortAvailability os { host := host, port := port, timeout := some 0 } log =
        checkPortAvailability os { host := host, port := port, timeout := none } log) ∧
    effectiveTimeout (some 0) = effectiveTimeout none ∧
    (∀ (os : OsModel) (host : Option String) (port : Nat) (log : List ProbeCall),
      os.bindDelay log.length host port < 1000 →
      (checkPortAvailability os { host := host, port := port, timeout := some 0 } log).1 ≠
        .error (.timeoutErr 1000)) := by
  refine ⟨fun _ _ _ _ => rfl, rfl, ?_⟩
  intro os host port log h
  have e0 : effectiveTimeout (some 0) = 1000 := rfl
  simp only [checkPortAvailability, probeOutcome, e0]
  rw [if_neg (by omega)]
  cases os.bind log.length host port <;> simp

/-- Witness for `timeoutZero_defaults` on a concrete instantly-settling OS. -/
theorem timeoutZero_defaults_witness :
    (checkPortAvailability osConst5000
        { host := none, port := 80, timeout := some 0 } []).1 ≠
      .error (.timeoutErr 1000) :=
  timeoutZero_defaults.2.2 osConst5000 none 80 [] (by decide)

/-- C9: an explicitly empty preference list (`port: []`) makes `getOpenPort`
reject with the generic "No available ports found" error: no probe is
issued, the lock table is unchanged, and no ephemeral fallback candidate
`0` is substituted for the empty array. -/
theorem emptyPortList_noFallback :
    (∀ (os : OsModel) (fuel now : Nat) (pm : PortManager) (ex : Option (List Nat))
        (tmo : Option Nat) (ho : Option String),
      getOpenPort os fuel now
          { port := some (Sum.inr []), exclude := ex, timeout := tmo, host := ho } pm =
        { result := .err .noAvailablePorts
        , pm := { pm with cleanupTimer := true }
        , log := [] }) ∧
    portsToCheck (some (Sum.inr [])) = [] :=
  ⟨fun _ _ _ _ _ _ _ => rfl, rfl⟩

/-- C2 is refuted: no function of the structured, non-message data of a
`LockedPortError` (its `name` and `code` — the only own properties the
constructor sets besides `message`) can recover the concerned port, since
those fields are identical for every port. -/
theorem lockedPortError_noStructuredPort :
    ¬ ∃ extract : String → Option String → Nat,
        ∀ p : Nat, extract (mkLockedPortError p).name (mkLockedPortError p).code = p := by
  rintro ⟨f, hf⟩
  have h0 := hf 0
  have h1 := hf 1
  rw [show (mkLockedPortError 0).name = (mkLockedPortError 1).name from rfl,
    show (mkLockedPortError 0).code = (mkLockedPortError 1).code from rfl] at h0
  omega

/-- C2 amended: a `LockedPortError` carries the stable name
`"LockedPortError"` and classification code `"EPORTLOCKED"`, enabling
structured handling by type/classification, but the concerned port number
appears only inside the message string. -/
theorem lockedPortError_classification :
    (∀ p : Nat, (mkLockedPortError p).name = "LockedPortError") ∧
    (∀ p : Nat, (mkLockedPortError p).code = some "EPORTLOCKED") ∧
    (∀ p : Nat, (mkLockedPortError p).message = "Port " ++ toString p ++ " is locked") ∧
    (∀ p : Nat, toJsError (.lockedPort p) = mkLockedPortError p) :=
  ⟨fun _ => rfl, fun _ => rfl, fun _ => rfl, fun _ => rfl⟩

/-- C1 fails on the code: with exclusion set `{5000}`, no requested port
(so the candidate list is the ephemeral sentinel `[0]`) and an OS that
assigns port 5000 to the ephemeral bind, `getOpenPort` resolves to 5000 —
an excluded port.  The exclusion check is applied only to the candidate
(`0` here), never to the OS-chosen bound port. -/
theorem excludedPort_returnedViaEphemeral :
    (getOpenPort osConst5000 1 0 { exclude := some [5000] } initialPortManager).result
        = .ok 5000 ∧
      (excludeList (some [5000])).contains 5000 = true :=
  ⟨rfl, rfl⟩

/-- C6: requesting a single nonzero port that is currently in the lock
table rejects with `LockedPortError` carrying that port, and no probe
(bind attempt) is issued at any point of the call. -/
theorem lockedCandidate_rejectsWithoutProbe :
    ∀ (os : OsModel) (fuel now : Nat) (pm : PortManager) (p : Nat)
      (ex : Option (List Nat)) (tmo : Option Nat) (ho : Option String),
      p ≠ 0 → mapHas pm.locked p = true →
      getOpenPort os fuel now
          { port := some (Sum.inl p), exclude := ex, timeout := tmo, host := ho } pm =
        { result := .err (.lockedPort p)
        , pm := { pm with cleanupTimer := true }
        , log := [] } := by
  intro os fuel now pm p ex tmo ho hp hl
  have hports : portsToCheck (some (Sum.inl p)) = [p] := by
    simp [portsToCheck, createPorts, jsSetDedup, jsSetDedupAux]
  have hpl : mapHas ({ pm with cleanupTimer := true } : PortManager).locked p = true := hl
  have htry : ∀ hosts log,
      tryCandidate os { port := some (Sum.inl p), exclude := ex, timeout := tmo, host := ho }
          hosts (excludeList ex) { pm with cleanupTimer := true } now fuel p log =
        .thrown (.lockedPort p) log := by
    intro hosts log
    rw [tryCandidate, if_pos (by rw [hpl, Bool.or_true]), if_pos]
    rw [hpl, Bool.true_and, bne_iff_ne]
    exact hp
  have hsw : swallowInCatch (.lockedPort p) = true := rfl
  rw [getOpenPort]
  simp only [hports, candidateLoop, htry, hsw, if_pos]
  simp only [List.find?, hpl]

/-- Witness for `lockedCandidate_rejectsWithoutProbe` with port 8080 locked. -/
theorem lockedCandidate_rejectsWithoutProbe_witness :
    getOpenPort osConst5000 0 0 { port := some (Sum.inl 8080) } pmLocked8080 =
      { result := .err (.lockedPort 8080)
      , pm := { pmLocked8080 with cleanupTimer := true }
      , log := [] } :=
  lockedCandidate_rejectsWithoutProbe osConst5000 0 0 pmLocked8080 8080 none none none
    (by decide) (by decide)

/-- C7: in the candidate iteration's `catch`, an `EADDRINUSE` failure
settles the whole selection immediately (no further candidate is tried);
an `EACCES` failure or a `LockedPortError` is swallowed and iteration
continues with the remaining candidates; any other failure settles the
selection immediately. -/
theorem candidateCatch_policy :
    ∀ (os : OsModel) (opts : GetPortOptions) (hosts : List (Option String))
      (exclude : List Nat) (pm : PortManager) (now fuel : Nat) (c : Nat)
      (cs : List Nat) (log log2 : List ProbeCall) (e : PortFailure),
      tryCandidate os opts hosts exclude pm now fuel c log = .thrown e log2 →
      ((errCode e = some "EADDRINUSE" →
          candidateLoop os opts hosts exclude pm now fuel (c :: cs) log =
            .done (.err e) pm log2) ∧
       (errCode e = some "EACCES" ∨ isLockedPortFailure e = true →
          candidateLoop os opts hosts exclude pm now fuel (c :: cs) log =
            candidateLoop os opts hosts exclude pm now fuel cs log2) ∧
       (errCode e ≠ some "EADDRINUSE" → errCode e ≠ some "EACCES" →
          isLockedPortFailure e = false →
          candidateLoop os opts hosts exclude pm now fuel (c :: cs) log =
            .done (.err e) pm log2)) := by
  intro os opts hosts exclude pm now fuel c cs log log2 e h
  have hloop : candidateLoop os opts hosts exclude pm now fuel (c :: cs) log =
      if swallowInCatch e then candidateLoop os opts hosts exclude pm now fuel cs log2
      else .done (.err e) pm log2 := by
    rw [candidateLoop, h]
  refine ⟨?_, ?_, ?_⟩
  · intro hc
    have hs : swallowInCatch e = false := by
      rw [swallowInCatch, hc]
      exact rfl
    rw [hloop, hs]
    simp
  · intro hc
    have hs : swallowInCatch e = true := by
      rcases hc with hc | hc
      · rw [swallowInCatch, hc]
        exact rfl
      · cases e <;> first | rfl | simp_all [isLockedPortFailure]
    rw [hloop, hs]
    simp
  · intro h1 h2 h3
    have hs : swallowInCatch e = false := by
      rw [swallowInCatch]
      cases e <;> simp_all [errCode, isLockedPortFailure]
    rw [hloop, hs]
    simp

/-- Witness for `candidateCatch_policy`: an `EADDRINUSE` failure on the
first candidate aborts the selection with that error, the second
candidate never being probed. -/
theorem candidateCatch_policy_witness :
    candidateLoop osAddrInUse {} [none] [] initialPortManager 0 0 [9000, 8999] [] =
      .done (.err (.osErr "EADDRINUSE")) initialPortManager
        [{ host := none, port := 9000, timeoutMs := 1000 }] :=
  (candidateCatch_policy osAddrInUse {} [none] [] initialPortManager 0 0 9000 [8999] []
      [{ host := none, port := 9000, timeoutMs := 1000 }] (.osErr "EADDRINUSE") rfl).1 rfl

/-- Only the `locked` component is updated by the reserve-and-return exit
of the retry loop: the cleanup timer field is untouched. -/
theorem retryWhileLocked_ret_timer :
    ∀ (os : OsModel) (opts : GetPortOptions) (hosts : List (Option String))
      (pm : PortManager) (now cand : Nat) (fuel : Nat) (avail : Nat)
      (log : List ProbeCall) (p : Nat) (pm2 : PortManager) (log2 : List ProbeCall),
      retryWhileLocked os opts hosts pm now cand fuel avail log = .ret p pm2 log2 →
      pm2.cleanupTimer = pm.cleanupTimer := by
  intro os opts hosts pm now cand fuel
  induction fuel with
  | zero =>
    intro avail log p pm2 log2 h
    rw [retryWhileLocked] at h
    split at h
    · split at h
      · cases h
      · cases h
    · cases h
      rfl
  | succ fuel ih =>
    intro avail log p pm2 log2 h
    rw [retryWhileLocked] at h
    split at h
    · split at h
      · cases h
      · rcases hv : verifyPort os (toListen opts 0) hosts log with ⟨r, log3⟩
        rw [hv] at h
        cases r with
        | ok a => exact ih a log3 p pm2 log2 h
        | error e => cases h
    · cases h
      rfl

/-- One candidate's `try` body never changes the cleanup timer field. -/
theorem tryCandidate_ret_timer :
    ∀ (os : OsModel) (opts : GetPortOptions) (hosts : List (Option String))
      (exclude : List Nat) (pm : PortManager) (now fuel : Nat) (c : Nat)
      (log : List ProbeCall) (p : Nat) (pm2 : PortManager) (log2 : List ProbeCall),
      tryCandidate os opts hosts exclude pm now fuel c log = .ret p pm2 log2 →
      pm2.cleanupTimer = pm.cleanupTimer := by
  intro os opts hosts exclude pm now fuel c log p pm2 log2 h
  rw [tryCandidate] at h
  split at h
  · split at h
    · cases h
    · cases h
  · rcases hv : verifyPort os (toListen opts c) hosts log with ⟨r, log3⟩
    rw [hv] at h
    cases r with
    | ok a => exact retryWhileLocked_ret_timer os opts hosts pm now c fuel a log3 p pm2 log2 h
    | error e => cases h

/-- The candidate loop never changes the cleanup timer field of the state
it settles with. -/
theorem candidateLoop_done_timer :
    ∀ (os : OsModel) (opts : GetPortOptions) (hosts : List (Option String))
      (exclude : List Nat) (pm : PortManager) (now fuel : Nat) (cs : List Nat)
      (log : List ProbeCall) (r : RunResult) (pm2 : PortManager) (log2 : List ProbeCall),
      candidateLoop os opts hosts exclude pm now fuel cs log = .done r pm2 log2 →
      pm2.cleanupTimer = pm.cleanupTimer := by
  intro os opts hosts exclude pm now fuel cs
  induction cs with
  | nil =>
    intro log r pm2 log2 h
    cases h
  | cons c cs ih =>
    intro log r pm2 log2 h
    rw [candidateLoop] at h
    cases ht : tryCandidate os opts hosts exclude pm now fuel c log with
    | ret p' pm' log' =>
      simp only [ht] at h
      injection h with h1 h2 h3
      subst h2
      exact tryCandidate_ret_timer os opts hosts exclude pm now fuel c log p' pm' log' ht
    | thrown e log' =>
      simp only [ht] at h
      split at h
      · exact ih log' r pm2 log2 h
      · injection h with h1 h2 h3
        subst h2
        rfl
    | cont log' =>
      simp only [ht] at h
      exact ih log' r pm2 log2 h
    | fuelOut log' =>
      simp only [ht] at h
      injection h with h1 h2 h3
      subst h2
      rfl

/-- Every `getOpenPort` call leaves the cleanup timer armed, whatever its
outcome: the arming happens unconditionally at the start of the call. -/
theorem getOpenPort_timer :
    ∀ (os : OsModel) (fuel now : Nat) (opts : GetPortOptions) (pm : PortManager),
      (getOpenPort os fuel now opts pm).pm.cleanupTimer = true := by
  intro os fuel now opts pm
  rw [getOpenPort]
  cases hc : candidateLoop os opts (createHosts os) (excludeList opts.exclude)
      { pm with cleanupTimer := true } now fuel (portsToCheck opts.port) [] with
  | done r pm2 log =>
    exact candidateLoop_done_timer os opts (createHosts os) (excludeList opts.exclude)
      { pm with cleanupTimer := true } now fuel (portsToCheck opts.port) [] r pm2 log hc
  | exhausted log =>
    cases hf : (portsToCheck opts.port).find?
        (fun p => mapHas ({ pm with cleanupTimer := true } : PortManager).locked p) with
    | none => rfl
    | some p => rfl

/-- The cleanup-timer invariant that actually holds: starting from a state
whose timer is armed exactly when the running call count is positive, the
timer is armed after a trace exactly when at least one `getOpenPort` call
(of any outcome) happened since the last clear. -/
theorem runOps_timer_iff :
    ∀ (ops : List Op) (pm : PortManager) (c : Nat),
      (pm.cleanupTimer = true ↔ 1 ≤ c) →
      ((runOps pm ops).cleanupTimer = true ↔ 1 ≤ callsSinceClear c ops) := by
  intro ops
  induction ops with
  | nil => intro pm c h; exact h
  | cons op ops ih =>
    intro pm c h
    cases op with
    | clear =>
      exact ih (clearLockedPorts pm) 0 (by simp [clearLockedPorts])
    | sweep now =>
      exact ih (cleanupExpiredPorts now pm) c (by simpa [cleanupExpiredPorts] using h)
    | call os fuel now opts =>
      exact ih ((getOpenPort os fuel now opts pm).pm) (c + 1)
        (by simp [getOpenPort_timer os fuel now opts pm])

/-- C3 is refuted: after a single failing `getOpenPort` call (its
preference list is empty, so it rejects without reserving anything) the
cleanup timer is armed even though no successful reservation has ever been
made — the timer is armed at the start of every call, not on reservation. -/
theorem cleanupTimer_armed_without_reservation :
    (runTrace failedCallTrace).cleanupTimer = true ∧
      reservationsSinceClear initialPortManager 0 failedCallTrace = 0 :=
  ⟨rfl, rfl⟩

/-- C3 amended: over all states reachable by the module's own operations,
the cleanup timer handle is non-null iff at least one `getOpenPort` call —
successful or not — has been made since the start or the last
`clearLockedPorts`; it is null initially and after a full clear. -/
theorem cleanupTimer_iff_calls :
    ∀ ops : List Op,
      (runTrace ops).cleanupTimer = true ↔ 1 ≤ callsSinceClear 0 ops :=
  fun ops => runOps_timer_iff ops initialPortManager 0 (by simp [initialPortManager])

/-- A `fuelOut` outcome is a `fuelOut` with some log. -/
theorem isFuelOut_exists :
    ∀ t : TryOutcome, t.isFuelOut = true → ∃ l, t = .fuelOut l := by
  intro t ht
  cases t <;> simp_all [TryOutcome.isFuelOut]

/-- C5 is refuted: with port 4000 locked and an OS on which every ephemeral
allocation resolves to 4000, the re-verify loop of `getOpenPort` never
obtains an unlocked port — no amount of fuel makes the run settle, i.e.
the source's uncapped `while` loop runs forever. -/
theorem ephemeralRetry_can_diverge :
    ¬ ∃ fuel : Nat,
        (getOpenPort osConst4000 fuel 0 {} pmLocked4000).result ≠ RunResult.diverge := by
  rintro ⟨fuel, h⟩
  apply h
  have hdiv : ∀ (fuel : Nat) (log : List ProbeCall),
      (retryWhileLocked osConst4000 {} (createHosts osConst4000)
          { pmLocked4000 with cleanupTimer := true } 0 0 fuel 4000 log).isFuelOut = true := by
    intro fuel
    induction fuel with
    | zero => intro log; rfl
    | succ fuel ih =>
      intro log
      exact ih (log ++ [{ host := none, port := 0, timeoutMs := 1000 }])
  obtain ⟨l, hl⟩ := isFuelOut_exists _
    (hdiv fuel [{ host := none, port := 0, timeoutMs := 1000 }])
  have htc : tryCandidate osConst4000 {} (createHosts osConst4000) (excludeList none)
      { pmLocked4000 with cleanupTimer := true } 0 fuel 0 [] = .fuelOut l := hl
  have hcl : candidateLoop osConst4000 {} (createHosts osConst4000) (excludeList none)
      { pmLocked4000 with cleanupTimer := true } 0 fuel [0] [] =
      .done .diverge { pmLocked4000 with cleanupTimer := true } l := by
    rw [candidateLoop]
    simp only [htc]
  rw [getOpenPort]
  rw [show portsToCheck ({} : GetPortOptions).port = [0] from rfl]
  rw [hcl]

/-- C5 amended: the re-verify loop terminates exactly when some
re-verification attempt exits — either failing (which throws out of the
loop) or resolving to an unlocked port.  If the probe that would run as
the `m`-th iteration exits, then fuel `m + 1` suffices for the loop to
settle; the preceding counterexample shows that without such an
assumption the loop can run forever. -/
theorem ephemeralRetry_terminates_with_fuel :
    ∀ (os : OsModel) (opts : GetPortOptions) (hosts : List (Option String))
      (pm : PortManager) (now : Nat) (m : Nat) (avail : Nat) (log : List ProbeCall),
      probeExitsAt os pm opts.host opts.timeout (log.length + m) →
      (retryWhileLocked os opts hosts pm now 0 (m + 1) avail log).isFuelOut = false := by
  intro os opts hosts pm now m
  have hver : ∀ log : List ProbeCall,
      verifyPort os (toListen opts 0) hosts log =
        (probeOutcome os log.length opts.host 0 opts.timeout,
         log ++ [({ host := opts.host, port := 0, timeoutMs := effectiveTimeout opts.timeout } : ProbeCall)]) := by
    intro log
    rw [verifyPort, if_pos (by simp [toListen])]
    rfl
  induction m with
  | zero =>
    intro avail log hx
    rw [retryWhileLocked]
    split
    · rw [if_neg (by simp)]
      rw [hver log]
      cases hp : probeOutcome os log.length opts.host 0 opts.timeout with
      | ok a =>
        rw [probeExitsAt] at hx
        simp only [Nat.add_zero, hp] at hx
        show (retryWhileLocked os opts hosts pm now 0 0 a
            (log ++ [({ host := opts.host, port := 0, timeoutMs := effectiveTimeout opts.timeout } : ProbeCall)])).isFuelOut = false
        rw [retryWhileLocked, if_neg (by simp [hx])]
        rfl
      | error e => rfl
    · rfl
  | succ m ih =>
    intro avail log hx
    rw [retryWhileLocked]
    split
    · rw [if_neg (by simp)]
      rw [hver log]
      cases hp : probeOutcome os log.length opts.host 0 opts.timeout with
      | ok a =>
        show (retryWhileLocked os opts hosts pm now 0 (m + 1) a
            (log ++ [({ host := opts.host, port := 0, timeoutMs := effectiveTimeout opts.timeout } : ProbeCall)])).isFuelOut = false
        apply ih a
        have hlen : (log ++ [({ host := opts.host, port := 0, timeoutMs := effectiveTimeout opts.timeout } : ProbeCall)]).length + m =
            log.length + (m + 1) := by
          simp only [List.length_append, List.length_cons, List.length_nil]
          omega
        rw [hlen]
        exact hx
      | error e => rfl
    · rfl

/-- Witness for `ephemeralRetry_terminates_with_fuel`: port 4000 is locked,
the first ephemeral allocation collides with it, and the second resolves
to the unlocked port 5000, so fuel 2 settles the loop. -/
theorem ephemeralRetry_terminates_with_fuel_witness :
    (retryWhileLocked osSecond5000 {} [none] pmLocked4000 0 0 2 4000 []).isFuelOut
      = false :=
  ephemeralRetry_terminates_with_fuel osSecond5000 {} [none] pmLocked4000 0 1 4000 []
    (by exact rfl)

/-- The fan-out issues, per host in order, exactly the probes described by
`settledProbes`, each passed through the per-host catch. -/
theorem probeHosts_eq_settled :
    ∀ (os : OsModel) (opts : ListenOpts) (hosts : List (Option String))
      (log : List ProbeCall),
      (probeHosts os opts hosts log).1 =
        (settledProbes os opts.port opts.timeout hosts log.length).map
          (fun dr => swallowHostError dr.2) := by
  intro os opts hosts
  induction hosts with
  | nil => intro log; rfl
  | cons h hs ih =>
    intro log
    have hrest := ih (log ++
      [({ host := h, port := opts.port, timeoutMs := effectiveTimeout opts.timeout } : ProbeCall)])
    simp only [List.length_append, List.length_cons, List.length_nil, Nat.zero_add] at hrest
    show swallowHostError (probeOutcome os log.length h opts.port opts.timeout) ::
        (probeHosts os opts hs (log ++
          [({ host := h, port := opts.port, timeoutMs := effectiveTimeout opts.timeout } : ProbeCall)])).1 =
      swallowHostError (probeOutcome os log.length h opts.port opts.timeout) ::
        (settledProbes os opts.port opts.timeout hs (log.length + 1)).map
          (fun dr => swallowHostError dr.2)
    rw [hrest]

/-- Every successful settlement of the fan-out carries the requested port,
provided the OS binds exactly the requested port. -/
theorem settledProbes_ok_val :
    ∀ (os : OsModel) (port : Nat) (tmo : Option Nat) (hosts : List (Option String))
      (k d q : Nat),
      (∀ (j : Nat) (h2 : Option String) (q2 : Nat), os.bind j h2 port = .ok q2 → q2 = port) →
      (d, Except.ok q) ∈ settledProbes os port tmo hosts k → q = port := by
  intro os port tmo hosts
  induction hosts with
  | nil => intro k d q hb hm; cases hm
  | cons h hs ih =>
    intro k d q hb hm
    rw [settledProbes] at hm
    rcases List.mem_cons.mp hm with he | ht
    · rw [Prod.mk.injEq] at he
      obtain ⟨he1, he2⟩ := he
      rw [probeOutcome] at he2
      split at he2
      · exact absurd he2 (by simp)
      · cases hbk : os.bind k h port with
        | ok p =>
          simp only [hbk] at he2
          injection he2 with hqp
          rw [hqp]
          exact hb k h p hbk
        | err c =>
          simp only [hbk] at he2
          exact absurd he2 (by simp)
    · exact ih (k + 1) d q hb ht

/-- The fold selecting the earliest settlement stays within the list. -/
theorem foldl_pick_mem :
    ∀ (rest : List (Nat × Nat)) (x : Nat × Nat),
      rest.foldl (fun b a => if a.1 < b.1 then a else b) x ∈ x :: rest := by
  intro rest
  induction rest with
  | nil => intro x; exact List.mem_singleton.mpr rfl
  | cons a rest ih =>
    intro x
    rw [List.foldl_cons]
    rcases List.mem_cons.mp (ih (if a.1 < x.1 then a else x)) with he | ht
    · rw [he]
      split
      · exact List.mem_cons_of_mem _ (List.mem_cons_self _ _)
      · exact List.mem_cons_self _ _
    · exact List.mem_cons_of_mem _ (List.mem_cons_of_mem _ ht)

/-- The earliest settlement, when present, is one of the settlements. -/
theorem earliestByDelay_mem :
    ∀ (xs : List (Nat × Nat)) (y : Nat × Nat), earliestByDelay xs = some y → y ∈ xs := by
  intro xs y h
  cases xs with
  | nil => cases h
  | cons x rest =>
    rw [earliestByDelay] at h
    injection h with h
    rw [← h]
    exact foldl_pick_mem rest x

/-- A successful settlement appears among the success settlements. -/
theorem mem_successSettlements :
    ∀ (xs : List (Nat × Except PortFailure Nat)) (d v : Nat),
      (d, Except.ok v) ∈ xs → (d, v) ∈ successSettlements xs := by
  intro xs d v h
  rw [successSettlements]
  exact List.mem_filterMap.mpr ⟨(d, Except.ok v), h, rfl⟩

/-- Conversely, every success settlement comes from a successful probe. -/
theorem successSettlements_mem_ok :
    ∀ (xs : List (Nat × Except PortFailure Nat)) (d p : Nat),
      (d, p) ∈ successSettlements xs → (d, Except.ok p) ∈ xs := by
  intro xs d p h
  rw [successSettlements] at h
  rcases List.mem_filterMap.mp h with ⟨dr, hdr, hf⟩
  rcases dr with ⟨d2, r⟩
  cases r with
  | ok q =>
    simp only at hf
    injection hf with hf
    rw [Prod.mk.injEq] at hf
    obtain ⟨h1, h2⟩ := hf
    rw [← h1, ← h2]
    exact hdr
  | error e =>
    simp only at hf
    cases hf

/-- A nonempty settlement list has an earliest element. -/
theorem earliestByDelay_isSome :
    ∀ (xs : List (Nat × Nat)) (y : Nat × Nat), y ∈ xs → ∃ z, earliestByDelay xs = some z := by
  intro xs y h
  cases xs with
  | nil => cases h
  | cons x rest => exact ⟨_, rfl⟩

/-- The per-host catch composed with `results.find`'s numeric filter keeps
exactly the bound port of a success and drops everything else. -/
theorem mapped_results_eq :
    ∀ (xs : List (Nat × Except PortFailure Nat)),
      (xs.map (fun dr => swallowHostError dr.2)).map
          (fun r => match r with | Except.ok w => w | Except.error _ => none) =
        xs.map (fun dr =>
          match dr.2 with | Except.ok p => some p | Except.error _ => none) := by
  intro xs
  induction xs with
  | nil => rfl
  | cons dr rest ih =>
    rcases dr with ⟨d, r⟩
    simp only [List.map_cons]
    rw [ih]
    congr 1
    cases r with
    | ok p => rfl
    | error e =>
      show (fun r => match r with
          | Except.ok w => w
          | Except.error _ => (none : Option Nat)) (swallowHostError (Except.error e)) = none
      rw [swallowHostError]
      by_cases hc : (errCode e == some "EADDRNOTAVAIL" || errCode e == some "EINVAL") = true
      · rw [if_pos hc]
      · rw [if_neg hc]

/-- `results.find` returning a number exhibits a successful settlement. -/
theorem firstNumber_okMap_mem :
    ∀ (xs : List (Nat × Except PortFailure Nat)) (v : Nat),
      firstNumber (xs.map (fun dr =>
          match dr.2 with | Except.ok p => some p | Except.error _ => none)) = some v →
      ∃ d, (d, Except.ok v) ∈ xs := by
  intro xs
  induction xs with
  | nil => intro v h; cases h
  | cons dr rest ih =>
    intro v h
    rcases dr with ⟨d, r⟩
    cases r with
    | ok p =>
      simp only [List.map_cons, firstNumber] at h
      injection h with h
      exact ⟨d, by rw [← h]; exact List.mem_cons_self _ _⟩
    | error e =>
      simp only [List.map_cons, firstNumber] at h
      obtain ⟨d2, hm⟩ := ih v h
      exact ⟨d2, List.mem_cons_of_mem _ hm⟩

/-- C4: in the multi-host fan-out of `verifyPort` (no explicit host,
nonzero requested port), under the OS guarantee that a successful bind of
a nonzero port binds exactly that port, a resolved verification returns
the bound port of the first successful probe in completion order among the
settled per-host results (all successes carry the same port, so the
earliest-settling success is the value returned). -/
theorem verifyPort_firstSuccessByCompletion :
    ∀ (os : OsModel) (opts : ListenOpts) (hosts : List (Option String))
      (log : List ProbeCall) (v : Nat),
      opts.host = none → opts.port ≠ 0 →
      (∀ (k : Nat) (h : Option String) (q : Nat), os.bind k h opts.port = .ok q → q = opts.port) →
      (verifyPort os opts hosts log).1 = .ok v →
      v = opts.port ∧
        firstSuccessByCompletion os opts.port opts.timeout hosts log.length = some v := by
  intro os opts hosts log v hh hp hb hok
  rw [verifyPort, if_neg (by simp [hh, jsTruthyHost, hp])] at hok
  cases hr : firstRejection (probeHosts os opts hosts log).1 with
  | some e =>
    simp only [hr] at hok
    cases hok
  | none =>
    simp only [hr] at hok
    cases hn : firstNumber ((probeHosts os opts hosts log).1.map
        (fun r => match r with | Except.ok w => w | Except.error _ => none)) with
    | none =>
      simp only [hn] at hok
      cases hok
    | some p =>
      simp only [hn] at hok
      by_cases hz : (p == 0) = true
      · rw [if_pos hz] at hok
        cases hok
      · rw [if_neg hz] at hok
        injection hok with hpv
        subst hpv
        rw [probeHosts_eq_settled os opts hosts log, mapped_results_eq] at hn
        obtain ⟨d, hmem⟩ := firstNumber_okMap_mem _ _ hn
        have hvp : p = opts.port :=
          settledProbes_ok_val os opts.port opts.timeout hosts log.length d p hb hmem
        refine ⟨hvp, ?_⟩
        rw [firstSuccessByCompletion]
        have hms := mem_successSettlements _ d p hmem
        obtain ⟨z, hz2⟩ :=
          earliestByDelay_isSome
            (successSettlements (settledProbes os opts.port opts.timeout hosts log.length))
            (d, p) hms
        rw [hz2]
        rcases z with ⟨zd, zp⟩
        have hzok := successSettlements_mem_ok _ zd zp
          (earliestByDelay_mem _ (zd, zp) hz2)
        have hzval : zp = opts.port :=
          settledProbes_ok_val os opts.port opts.timeout hosts log.length zd zp hb hzok
        show some zp = some p
        rw [hzval, hvp]

/-- Witness for `verifyPort_firstSuccessByCompletion`: two hosts, the
second settling first; the fan-out on port 8080 resolves to 8080, the
first success in completion order. -/
theorem verifyPort_firstSuccessByCompletion_witness :
    (8080 : Nat) = 8080 ∧
      firstSuccessByCompletion osEcho 8080 none [none, some "0.0.0.0"] 0 = some 8080 :=
  verifyPort_firstSuccessByCompletion osEcho
    { host := none, port := 8080, timeout := none } [none, some "0.0.0.0"] [] 8080
    rfl (by decide)
    (by intro k h q hq; injection hq with hq; exact hq.symm)
    rfl

end GetFreePort
